import Mathlib

/-!
Verification of the scope_agent conversation and tool-call orchestration engine.

This file gives a shallow embedding of the Python source (models/suggestions.py,
models/interaction.py, models/project.py, managers/tool_manager.py,
managers/assistant_manager.py, managers/interaction_recorder.py,
managers/project_manager.py, managers/data_manager.py, scope_agent.py) and
proves or refutes the specification claims about it.

Modelling conventions:
* Python `Optional[str]` becomes `Option String`; Python truthiness of an
  optional string (`if x:`) is `optTruthy` (present and non-empty).
* Python dicts keyed by strings become association lists (`List (String × _)`),
  first binding wins on lookup, insertion replaces.
* Wall-clock timestamps (`datetime.now()`) are threaded as an explicit `now`
  argument; their value is irrelevant to every claim.
* JSON payloads handed to tools are modelled by `JVal`; the serialized argument
  string of a tool call is modelled as `Option JVal` (`some v` when the string
  parses to `v` under `json.loads`, `none` when parsing raises).
* Python floats never lose precision in the expressions the claims touch (all
  completion percentages are integer multiples of 12.5), so they are modelled
  as exact rationals `ℚ`.
-/

/-- A JSON value, as produced by `json.loads` on a tool-call payload. -/
inductive JVal where
  | jnull : JVal
  | jbool (b : Bool) : JVal
  | jnum (n : Int) : JVal
  | jstr (s : String) : JVal
  | jarr (xs : List JVal) : JVal
  | jobj (fs : List (String × JVal)) : JVal
deriving Inhabited

/-- Lookup of a key in a JSON object (association list, first binding wins). -/
def jLookup (fs : List (String × JVal)) (k : String) : Option JVal :=
  (fs.find? (fun p => p.1 == k)).map (fun p => p.2)

/-- Python truthiness of an optional string: present and non-empty.
`if x:` on an `Optional[str]` is true exactly when `x` is not `None`
and not the empty string. -/
def optTruthy (o : Option String) : Bool :=
  match o with
  | none => false
  | some s => s ≠ ""

/-- The default whitespace characters of Python `str.strip()` (ASCII part;
the claims only exercise ASCII strings). -/
def isPyWs (c : Char) : Bool :=
  c = ' ' ∨ c = '\t' ∨ c = '\n' ∨ c = '\r' ∨ c = '\x0b' ∨ c = '\x0c'

/-- Drop leading whitespace characters. -/
def dropLeadingWs : List Char → List Char
  | [] => []
  | c :: cs => if isPyWs c then dropLeadingWs cs else c :: cs

/-- Python `str.strip()`: remove leading and trailing whitespace. -/
def pyStrip (s : String) : String :=
  ⟨dropLeadingWs (dropLeadingWs s.data.reverse).reverse⟩

/-- models/suggestions.py `SuggestionItem`: one suggestion offered to the user.
The Python `id` field has a `uuid4` default; the embedding always carries an
explicit id (the default is an opaque fresh string, irrelevant to all claims). -/
structure SuggestionItem where
  id : String
  text : String
  description : Option String := none
  best_practice : Option String := none
deriving Repr, DecidableEq, Inhabited

/-- models/suggestions.py `CategoryData`: one named slot of the scope document.
`selected_suggestion` is the `{"id": ..., "text": ...}` dict, modelled as a pair.
(The `models/project.py` variant of `CategoryData` is identical except that it
lacks the `notes` field, which no claim touches.) -/
structure CategoryData where
  value : Option String := none
  description : Option String := none
  timestamp : Option String := none
  notes : Option String := none
  raw_input : Option String := none
  selected_suggestion : Option (String × String) := none
deriving Repr, DecidableEq, Inhabited

/-- models/suggestions.py `CategoryData.is_complete`:
`self.value is not None and bool(self.value.strip()) if isinstance(self.value, str)
 else self.value is not None`.  Since `value : Optional[str]`, this is: the value
is present and non-blank after stripping whitespace. -/
def CategoryData.is_complete (c : CategoryData) : Bool :=
  match c.value with
  | none => false
  | some s => pyStrip s ≠ ""

/-- models/suggestions.py `ScopeData`: the scope document with its eight fixed
required slots, an open map of additional categories, and version metadata.
(This is the single class named `ScopeData` defined in models/suggestions.py;
see `handle_save_scope` for the distinct legacy `models.py` class of the
same name.) -/
structure ScopeData where
  project_name : CategoryData := {}
  objective : CategoryData := {}
  audience : CategoryData := {}
  deliverable : CategoryData := {}
  timeline : CategoryData := {}
  resource : CategoryData := {}
  risk : CategoryData := {}
  success_metric : CategoryData := {}
  additional_categories : List (String × CategoryData) := []
  last_updated : String := ""
  version : Int := 1
deriving Repr, DecidableEq, Inhabited

/-- The `core_fields` list built inside `ScopeData.get_completion_percentage`. -/
def ScopeData.coreFields (s : ScopeData) : List CategoryData :=
  [s.project_name, s.objective, s.audience, s.deliverable,
   s.timeline, s.resource, s.risk, s.success_metric]

/-- Python `round(x, 2)` on the exact rational value `x`.  Every value this is
applied to in the source is an integer multiple of `1/8` of 100, hence exactly
representable as a float, and `x * 100` is an integer, so banker's rounding and
ordinary rounding agree and the operation is exact. -/
def round2 (q : ℚ) : ℚ := (round (q * 100) : ℚ) / 100

/-- models/suggestions.py `ScopeData.get_completion_percentage`:
`completed = sum(1 for field in core_fields if field.is_complete())`,
`return round((completed / len(core_fields)) * 100, 2)`. -/
def ScopeData.get_completion_percentage (s : ScopeData) : ℚ :=
  let completed := s.coreFields.countP (fun f => f.is_complete)
  round2 (((completed : ℚ) / (s.coreFields.length : ℚ)) * 100)

/-- models/suggestions.py `ScopeData.update_timestamp`. -/
def ScopeData.update_timestamp (s : ScopeData) (now : String) : ScopeData :=
  { s with last_updated := now, version := s.version + 1 }

/-- The eight fixed required category names. -/
def coreCats : List String :=
  ["project_name", "objective", "audience", "deliverable",
   "timeline", "resource", "risk", "success_metric"]

/-- Insert-or-replace in an association list (first binding wins on lookup). -/
def assocPut (l : List (String × CategoryData)) (k : String) (v : CategoryData) :
    List (String × CategoryData) :=
  match l with
  | [] => [(k, v)]
  | (k1, v1) :: rest =>
    if k1 = k then (k, v) :: rest else (k1, v1) :: assocPut rest k v

/-- Association-list lookup. -/
def assocGet (l : List (String × CategoryData)) (k : String) : Option CategoryData :=
  (l.find? (fun p => p.1 == k)).map (fun p => p.2)

/-- The mutation `ScopeData.update_category` applies to the targeted slot:
set `value`; set `description`/`timestamp` under Python truthiness checks
(`if description:`, `if timestamp:`); then resolve provenance
(`if is_custom: raw_input, selected None; elif suggestion_id: selected, raw None`). -/
def categoryMutation (value : String) (description : Option String)
    (suggestion_id : Option String) (timestamp : Option String)
    (is_custom : Bool) (now : String) (t : CategoryData) : CategoryData :=
  let t := { t with value := some value }
  let t := if optTruthy description then { t with description := description } else t
  let t := if optTruthy timestamp then { t with timestamp := timestamp }
           else { t with timestamp := some now }
  if is_custom then
    { t with raw_input := some value, selected_suggestion := none }
  else
    match suggestion_id with
    | some sid =>
      if sid ≠ "" then
        { t with selected_suggestion := some (sid, value), raw_input := none }
      else t
    | none => t

/-- models/suggestions.py `ScopeData.update_category`: resolve the target slot
(a fixed field when `category` names one of the eight slots, else an entry of
`additional_categories`, created on first use), apply `categoryMutation`, then
`update_timestamp`.

Faithfulness note: the Python branch condition is `hasattr(self, category)`,
so a category string naming a non-slot attribute of the object (for example
`"additional_categories"`, `"version"` or a method name) raises
`AttributeError` in the source; the embedding is faithful for category strings
that are either one of the eight slot names or not an attribute of the Python
object, and theorems quantify only over such strings. -/
def ScopeData.update_category (s : ScopeData) (category value : String)
    (description : Option String) (suggestion_id : Option String)
    (timestamp : Option String) (is_custom : Bool) (now : String) : ScopeData :=
  let f := categoryMutation value description suggestion_id timestamp is_custom now
  let s :=
    if category = "project_name" then { s with project_name := f s.project_name }
    else if category = "objective" then { s with objective := f s.objective }
    else if category = "audience" then { s with audience := f s.audience }
    else if category = "deliverable" then { s with deliverable := f s.deliverable }
    else if category = "timeline" then { s with timeline := f s.timeline }
    else if category = "resource" then { s with resource := f s.resource }
    else if category = "risk" then { s with risk := f s.risk }
    else if category = "success_metric" then { s with success_metric := f s.success_metric }
    else
      match assocGet s.additional_categories category with
      | some t =>
        { s with additional_categories := assocPut s.additional_categories category (f t) }
      | none =>
        { s with additional_categories := assocPut s.additional_categories category (f {}) }
  s.update_timestamp now

/-- models/interaction.py `InteractionRecord.validate_question` (a pydantic
pre-validator on the `question` field):
`if not v or v == "." or not v.strip(): return "No specific question recorded"`.
`not v` is the empty string, `not v.strip()` is a whitespace-only string, and
the only punctuation handled is the exact string ".". -/
def validate_question (v : String) : String :=
  if v = "" ∨ v = "." ∨ pyStrip v = "" then "No specific question recorded" else v

/-- models/interaction.py `InteractionRecord`: one question/answer exchange. -/
structure InteractionRecord where
  timestamp : String := ""
  question : String
  category : Option String := none
  context : Option String := none
  suggestions : List SuggestionItem := []
  selection : Option String := none
  selection_id : Option String := none
  custom_input : Option String := none
  is_custom : Bool := false
deriving Repr, DecidableEq, Inhabited

/-- Construction of an `InteractionRecord` as pydantic performs it: the
`validate_question` validator runs on the supplied `question`. -/
def mkInteractionRecord (timestamp question : String) (category : Option String)
    (suggestions : List SuggestionItem) : InteractionRecord :=
  { timestamp := timestamp
    question := validate_question question
    category := category
    suggestions := suggestions }

/-- Replace the element at position `n` by its image under `f`
(the in-place mutation `self.interactions[index]` with `setattr` updates). -/
def updList (f : InteractionRecord → InteractionRecord) :
    Nat → List InteractionRecord → List InteractionRecord
  | _, [] => []
  | 0, x :: xs => f x :: xs
  | n + 1, x :: xs => x :: updList f n xs

/-- models/interaction.py `InteractionHistory`: the interaction ledger. -/
structure InteractionHistory where
  interactions : List InteractionRecord := []
deriving Repr, DecidableEq, Inhabited

/-- models/interaction.py `InteractionHistory.add_interaction`: append and
return the new index. -/
def InteractionHistory.add_interaction (h : InteractionHistory)
    (r : InteractionRecord) : InteractionHistory × Int :=
  ({ interactions := h.interactions ++ [r] }, (h.interactions.length : Int))

/-- models/interaction.py `InteractionHistory.update_interaction`:
`if 0 <= index < len(self.interactions):` apply the keyword updates (modelled
as an arbitrary record transformation `upd`) to the record at `index` and
return `True`; otherwise return `False` leaving the ledger untouched.
The Python index is a signed integer, so it is modelled as `Int`. -/
def InteractionHistory.update_interaction (h : InteractionHistory) (index : Int)
    (upd : InteractionRecord → InteractionRecord) : Bool × InteractionHistory :=
  if 0 ≤ index ∧ index < (h.interactions.length : Int) then
    (true, { interactions := updList upd index.toNat h.interactions })
  else
    (false, h)

/-- The four project lifecycle stages
(`Literal["initial", "naming", "scoping", "complete"]`). -/
inductive Stage where
  | initial : Stage
  | naming : Stage
  | scoping : Stage
  | complete : Stage
deriving Repr, DecidableEq, Inhabited

/-- Forward-progression order of the lifecycle stages. -/
def Stage.rank : Stage → Nat
  | .initial => 0
  | .naming => 1
  | .scoping => 2
  | .complete => 3

/-- models/suggestions.py `ProjectData` (the streamlined aggregate root):
name, status, lifecycle stage, remote identifiers, scope document and
interaction ledger. -/
structure ProjectData where
  name : String
  created_at : String := ""
  last_modified : String := ""
  status : String := "new"
  stage : Stage := .initial
  description : Option String := none
  assistant_id : Option String := none
  thread_id : Option String := none
  scope : ScopeData := {}
  interaction_history : InteractionHistory := {}
deriving Repr, DecidableEq, Inhabited

/-- models/suggestions.py `ProjectData.get_completion_percentage`. -/
def ProjectData.get_completion_percentage (p : ProjectData) : ℚ :=
  p.scope.get_completion_percentage

/-- The net stage transition of `update_category_from_interaction`: force
`scoping` for a `project_name` update, promote `initial` to `scoping`, and
jump to `complete` when the post-update completion percentage is 100. -/
def stageAfterCategoryUpdate (category : String) (stage : Stage) (pct : ℚ) : Stage :=
  let stage := if category = "project_name" then Stage.scoping else stage
  let stage := if stage = Stage.initial then Stage.scoping else stage
  if pct = (100 : ℚ) then Stage.complete else stage

/-- The resolution `update_category_from_interaction` extracts from the
interaction record: the value, the custom flag, and the suggestion id (custom
input wins when `is_custom` is set and the input is truthy, else a truthy
selection; otherwise nothing). -/
def resolveInteraction (rec : InteractionRecord) :
    Option (String × Bool × Option String) :=
  if rec.is_custom ∧ optTruthy rec.custom_input then
    some (rec.custom_input.getD "", true, none)
  else if optTruthy rec.selection then
    some (rec.selection.getD "", false, rec.selection_id)
  else none

/-- models/suggestions.py `ProjectData.update_category_from_interaction`:
resolve the record, find the selected suggestion's description, update the
scope, rename the project when the category is `project_name`, advance the
stage (`stageAfterCategoryUpdate` collects the source's three sequential stage
assignments, which only read `category`, the prior stage, and the post-update
completion percentage), and mark the status `complete` at 100%. -/
def ProjectData.update_category_from_interaction (p : ProjectData)
    (category : String) (rec : InteractionRecord) (now : String) : ProjectData :=
  if category = "" then p
  else
    match resolveInteraction rec with
    | none => p
    | some (value, is_custom, suggestion_id) =>
      let description : Option String :=
        if ¬ is_custom ∧ optTruthy suggestion_id then
          match rec.suggestions.find? (fun sug =>
              sug.id == suggestion_id.getD "" && optTruthy sug.description) with
          | some sug => sug.description
          | none => none
        else none
      let scope1 := p.scope.update_category category value description
        suggestion_id (some rec.timestamp) is_custom now
      let pct := scope1.get_completion_percentage
      { p with
        scope := scope1
        name := if category = "project_name" then value else p.name
        stage := stageAfterCategoryUpdate category p.stage pct
        status := if pct = (100 : ℚ) then "complete" else p.status
        last_modified := now }

/-- managers/project_manager.py `ProjectManager.update_project_name` (and the
identical scope_agent.py `ProjectScopingAgent.update_project_name`), restricted
to its effect on the project aggregate: after deleting the old file it sets
`self.current_project.name = name` and `self.current_project.stage = "scoping"`
unconditionally, then saves. -/
def updateProjectName (p : ProjectData) (name : String) : ProjectData :=
  { p with name := name, stage := .scoping }

/-- managers/project_manager.py `ProjectManager.handle_scope_saved` (handler of
the "scope_saved" notification): store the saved scope dictionary on the
project and set `stage = "complete"`.  The raw dictionary content is carried
opaquely since no claim depends on it. -/
def handleScopeSaved (p : ProjectData) (_scope : List (String × JVal)) : ProjectData :=
  { p with stage := .complete }

/-- managers/interaction_recorder.py `InteractionRecorder`: holds the memo
`latest_indices`, a dict from project *names* to the index returned by the most
recent `record_question` for that name. -/
structure InteractionRecorder where
  latest_indices : List (String × Int) := []
deriving Repr, DecidableEq, Inhabited

/-- Insert-or-replace in the `latest_indices` dict. -/
def intAssocPut (l : List (String × Int)) (k : String) (v : Int) : List (String × Int) :=
  match l with
  | [] => [(k, v)]
  | (k1, v1) :: rest =>
    if k1 = k then (k, v) :: rest else (k1, v1) :: intAssocPut rest k v

/-- Lookup in the `latest_indices` dict (`dict.get`). -/
def intAssocGet (l : List (String × Int)) (k : String) : Option Int :=
  (l.find? (fun p => p.1 == k)).map (fun p => p.2)

/-- managers/interaction_recorder.py `InteractionRecorder.record_question`:
build an `InteractionRecord` (running the question validator), append it to the
project's ledger, memoize the new index under the project's name, and return
the index.  The guard on a missing project/ledger cannot fire in the embedding
because `ProjectData` always carries a ledger (as in the source, where
`interaction_history` is always initialized). -/
def InteractionRecorder.record_question (r : InteractionRecorder) (p : ProjectData)
    (question : String) (category : Option String)
    (suggestions : List SuggestionItem) (now : String) :
    InteractionRecorder × ProjectData × Int :=
  let record := mkInteractionRecord now question category suggestions
  let (h, idx) := p.interaction_history.add_interaction record
  ({ latest_indices := intAssocPut r.latest_indices p.name idx },
   { p with interaction_history := h }, idx)

/-- managers/interaction_recorder.py `InteractionRecorder.get_latest_index`:
`self.latest_indices.get(project.name, -1)` — the memoized index for the
project's name, or −1; the ledger itself is never consulted. -/
def InteractionRecorder.get_latest_index (r : InteractionRecorder) (p : ProjectData) : Int :=
  (intAssocGet r.latest_indices p.name).getD (-1)

/-- managers/interaction_recorder.py `InteractionRecorder.record_response`:
delegate to `update_interaction`, overwriting all four resolution fields
(`selection`, `selection_id`, `custom_input`, `is_custom`) of the record at
`interaction_index` with the supplied arguments; report the boolean outcome. -/
def InteractionRecorder.record_response (p : ProjectData) (interaction_index : Int)
    (selection_text selection_id custom_input : Option String) (is_custom : Bool) :
    Bool × ProjectData :=
  let (updated, h) := p.interaction_history.update_interaction interaction_index
    (fun r => { r with selection := selection_text, selection_id := selection_id,
                       custom_input := custom_input, is_custom := is_custom })
  (updated, { p with interaction_history := h })

/-- models/project.py `ScopeMetadata`. -/
structure ScopeMetadata where
  last_updated : String := ""
  completion_percentage : ℚ := 0
  completion_status : List (String × String) := []
  version : Int := 1
deriving Repr, DecidableEq, Inhabited

/-- models/project.py `ScopeData` (the enhanced variant with an open category
map), named apart to avoid clashing with the models/suggestions.py class. -/
structure EnhancedScopeData where
  metadata : ScopeMetadata := {}
  categories : List (String × CategoryData) := []
deriving Repr, DecidableEq, Inhabited

/-- models/project.py `ProjectData` (the enhanced variant).  The legacy
`scope` dict and the remote identifiers are omitted: no claim touches them. -/
structure EnhancedProjectData where
  name : String
  status : String := "new"
  stage : Stage := .initial
  description : Option String := none
  enhanced_scope : EnhancedScopeData := {}
deriving Repr, DecidableEq, Inhabited

/-- The completion test of models/project.py `_update_completion_status`:
`category in self.enhanced_scope.categories and
 self.enhanced_scope.categories[category].value` (value truthy). -/
def EnhancedScopeData.catCompleted (e : EnhancedScopeData) (cat : String) : Bool :=
  match assocGet e.categories cat with
  | some cd => optTruthy cd.value
  | none => false

/-- models/project.py `ProjectData._update_completion_status`: rebuild the
completed/incomplete map over the eight required categories (the source lists
the same eight names as `coreCats`), count the completed ones, set
`completion_percentage = round((completed / total) * 100, 2)` and bump the
metadata version. -/
def EnhancedProjectData.update_completion_status (p : EnhancedProjectData)
    (now : String) : EnhancedProjectData :=
  let status := coreCats.map (fun cat =>
    (cat, if p.enhanced_scope.catCompleted cat then "completed" else "incomplete"))
  let completed := status.countP (fun e => e.2 == "completed")
  let total := coreCats.length
  let cp : ℚ := if 0 < total then ((completed : ℚ) / (total : ℚ)) * 100 else 0
  { p with enhanced_scope :=
      { p.enhanced_scope with metadata :=
          { completion_status := status
            completion_percentage := round2 cp
            last_updated := now
            version := p.enhanced_scope.metadata.version + 1 } } }

/-- managers/data_manager.py `DataManager.save_project` filename derivation:
`safe_name = ''.join(c if c.isalnum() else '_' for c in project.name)`
(scope_agent.py `ProjectScopingAgent.save_project` uses the identical
expression).  Python's `isalnum` agrees with `Char.isAlphanum` on ASCII. -/
def pySafeName (name : String) : String :=
  ⟨name.data.map (fun c => if c.isAlphanum then c else '_')⟩

/-- `os.path.join(self.projects_dir, f"{safe_name}.json")`. -/
def projectFilePath (projects_dir name : String) : String :=
  projects_dir ++ "/" ++ pySafeName name ++ ".json"

/-- Overwrite-on-write file store: `open(file_path, 'w')` replaces the file. -/
def storePut (st : List (String × ProjectData)) (k : String) (v : ProjectData) :
    List (String × ProjectData) :=
  (k, v) :: st.filter (fun e => e.1 ≠ k)

/-- File-store lookup. -/
def storeGet (st : List (String × ProjectData)) (k : String) : Option ProjectData :=
  (st.find? (fun e => e.1 == k)).map (fun e => e.2)

/-- managers/data_manager.py `DataManager.save_project`: refresh
`last_modified`, derive the path from the project name alone, and write the
serialized project there (overwriting whatever the path held). -/
def DataManager.save_project (st : List (String × ProjectData))
    (projects_dir : String) (p : ProjectData) (now : String) :
    List (String × ProjectData) × String :=
  let p := { p with last_modified := now }
  let file_path := projectFilePath projects_dir p.name
  (storePut st file_path p, file_path)

/-- Parse a JSON value as a required string field value (pydantic `str`). -/
def parseStr : JVal → Option String
  | .jstr s => some s
  | _ => none

/-- Parse an `Optional[str]` field from its (possibly absent) JSON value:
absent or `null` gives `None`, a string gives the string, anything else is a
validation error. -/
def parseOptionalStr : Option JVal → Option (Option String)
  | none => some none
  | some .jnull => some none
  | some (.jstr s) => some (some s)
  | some _ => none

/-- Parse a `bool = True` field: absent gives the default `True`. -/
def parseBoolDefaultTrue : Option JVal → Option Bool
  | none => some true
  | some (.jbool b) => some b
  | some _ => none

/-- Pydantic validation of a `SuggestionItem` from a JSON value: `text` is
required, `id` defaults to a fresh opaque uuid (modelled as `""`),
`description` and `best_practice` are optional. -/
def parseSuggestionItem (v : JVal) : Option SuggestionItem :=
  match v with
  | .jobj fs => do
    let text ← match jLookup fs "text" with
      | some (.jstr s) => some s
      | _ => none
    let id ← match jLookup fs "id" with
      | none => some ""
      | some (.jstr s) => some s
      | some _ => none
    let description ← parseOptionalStr (jLookup fs "description")
    let bp ← parseOptionalStr (jLookup fs "best_practice")
    some { id := id, text := text, description := description, best_practice := bp }
  | _ => none

/-- Pydantic validation of `List[SuggestionItem]`. -/
def parseSuggestionList (v : JVal) : Option (List SuggestionItem) :=
  match v with
  | .jarr xs => xs.mapM parseSuggestionItem
  | _ => none

/-- models/suggestions.py `ProjectNameRequest`. -/
structure ProjectNameRequest where
  project_description : String
  suggestions : List SuggestionItem
  allow_custom_input : Bool := true
deriving Repr, DecidableEq, Inhabited

/-- Pydantic validation of a `ProjectNameRequest` payload
(`ProjectNameRequest(**function_args)`). -/
def ProjectNameRequest.parse (v : JVal) : Option ProjectNameRequest :=
  match v with
  | .jobj fs => do
    let pd ← match jLookup fs "project_description" with
      | some (.jstr s) => some s
      | _ => none
    let sv ← jLookup fs "suggestions"
    let sg ← parseSuggestionList sv
    let ac ← parseBoolDefaultTrue (jLookup fs "allow_custom_input")
    some { project_description := pd, suggestions := sg, allow_custom_input := ac }
  | _ => none

/-- The `Literal` category values accepted by `SuggestionRequest`. -/
def suggestionCategoryLiterals : List String :=
  ["project_name", "objective", "timeline", "resource",
   "risk", "deliverable", "audience", "success_metric", "best_practice"]

/-- models/suggestions.py `SuggestionRequest`. -/
structure SuggestionRequest where
  category : String
  question : String
  suggestions : List SuggestionItem
  allow_custom_input : Bool := true
deriving Repr, DecidableEq, Inhabited

/-- Pydantic validation of a `SuggestionRequest` payload
(`SuggestionRequest(**function_args)`); `category` must be one of the nine
`Literal` values. -/
def SuggestionRequest.parse (v : JVal) : Option SuggestionRequest :=
  match v with
  | .jobj fs => do
    let cat ← match jLookup fs "category" with
      | some (.jstr s) => if s ∈ suggestionCategoryLiterals then some s else none
      | _ => none
    let q ← match jLookup fs "question" with
      | some (.jstr s) => some s
      | _ => none
    let sv ← jLookup fs "suggestions"
    let sg ← parseSuggestionList sv
    let ac ← parseBoolDefaultTrue (jLookup fs "allow_custom_input")
    some { category := cat, question := q, suggestions := sg, allow_custom_input := ac }
  | _ => none

/-- A typed tool output value: either a `SuggestionResponse{status, rendered,
num_suggestions}` or a `ScopeResponse{status, message}`. -/
inductive ToolResponse where
  | suggestion (status : String) (rendered : Bool) (num_suggestions : Nat)
  | scope (status : String) (message : String)
deriving Repr, DecidableEq, Inhabited

/-- The mutable single-slot suggestion state of managers/tool_manager.py
`ToolCoordinator` (`current_suggestions`, `current_suggestion_category`). -/
structure ToolState where
  current_suggestions : List SuggestionItem := []
  current_suggestion_category : Option String := none
deriving Repr, DecidableEq, Inhabited

/-- Events published on the event bus by the tool coordinator, and consumed by
the project-manager handlers. -/
inductive BusEvent where
  | scope_saved (scope : List (String × JVal))
  | suggestions_generated (suggestions : List SuggestionItem) (category : String)
      (allow_custom : Bool)
  | project_names_generated (suggestions : List SuggestionItem) (allow_custom : Bool)

/-- managers/tool_manager.py `ToolCoordinator._handle_save_scope`.

The source constructs `ScopeData(**function_args)` and then reads
`scope_data.scope` (to publish the "scope_saved" event and print the
document).  `ScopeData` here is imported from `models.suggestions`, whose only
class of that name is the eight-slot scope document with *no* `scope` field
(the `scope: Dict[str, Any]` class of the same name lives only in the legacy
top-level models.py, which this module does not import).  Consequently, inside
the `try` block either pydantic validation fails, or the attribute access
`scope_data.scope` raises `AttributeError`; every path lands in the `except`
handler, which returns the `status="partial"` fallback response and publishes
nothing.  The success branch (`status="success"` plus the "scope_saved" event)
is unreachable. -/
def handle_save_scope (_function_args : JVal) : ToolResponse × List BusEvent :=
  (.scope "partial" "Progress saved, but complete scope document not available yet", [])

/-- managers/tool_manager.py `ToolCoordinator._handle_generate_project_names`:
validate the payload; on success store the suggestions as the current slot
(category `"project_name"`), publish "project_names_generated" and answer
`status="success", rendered=True`; on a validation failure answer
`status="error", rendered=False, num_suggestions=0`. -/
def handle_generate_project_names (st : ToolState) (function_args : JVal) :
    ToolResponse × ToolState × List BusEvent :=
  match ProjectNameRequest.parse function_args with
  | some req =>
    (.suggestion "success" true req.suggestions.length,
     { current_suggestion_category := some "project_name",
       current_suggestions := req.suggestions },
     [.project_names_generated req.suggestions req.allow_custom_input])
  | none => (.suggestion "error" false 0, st, [])

/-- managers/tool_manager.py `ToolCoordinator._handle_generate_suggestions`:
like `handle_generate_project_names`, with the request's own category. -/
def handle_generate_suggestions (st : ToolState) (function_args : JVal) :
    ToolResponse × ToolState × List BusEvent :=
  match SuggestionRequest.parse function_args with
  | some req =>
    (.suggestion "success" true req.suggestions.length,
     { current_suggestion_category := some req.category,
       current_suggestions := req.suggestions },
     [.suggestions_generated req.suggestions req.category req.allow_custom_input])
  | none => (.suggestion "error" false 0, st, [])

/-- managers/tool_manager.py `ToolCoordinator._process_tool_call`: dispatch on
the function name; unknown names answer the error `SuggestionResponse`. -/
def process_tool_call (st : ToolState) (function_name : String)
    (function_args : JVal) : ToolResponse × ToolState × List BusEvent :=
  if function_name = "save_scope" then
    let (r, evs) := handle_save_scope function_args
    (r, st, evs)
  else if function_name = "generate_project_names" then
    handle_generate_project_names st function_args
  else if function_name = "generate_suggestions" then
    handle_generate_suggestions st function_args
  else
    (.suggestion "error" false 0, st, [])

/-- One pending tool call of a `requires_action` run: identifier, function
name, and the serialized argument payload (modelled by its `json.loads`
outcome: `some v` when the string parses to `v`, `none` when parsing raises). -/
structure ToolCall where
  id : String
  function_name : String
  arguments : Option JVal

/-- `json.loads` on a modelled payload. -/
def jsonLoads : Option JVal → Except Unit JVal
  | none => .error ()
  | some v => .ok v

/-- One entry of the submitted `tool_outputs` batch. -/
structure ToolOutput where
  tool_call_id : String
  output : ToolResponse
deriving Repr, DecidableEq, Inhabited

/-- managers/tool_manager.py `ToolCoordinator.handle_required_actions`: walk
the pending calls in order; for each, `json.loads` the argument payload and
process the call, collecting one tagged output per call; afterwards submit the
batch (the caller of this function emits the submission).

`json.loads` runs *outside* any per-call exception handler, so a payload that
fails to parse raises out of the whole method: no outputs are produced or
submitted for any call of the batch (`Except.error`).  Validation failures,
by contrast, are absorbed inside the individual handlers. -/
def handle_required_actions (st : ToolState) :
    List ToolCall → Except Unit (List ToolOutput × ToolState × List BusEvent)
  | [] => .ok ([], st, [])
  | c :: rest =>
    match jsonLoads c.arguments with
    | .error _ => .error ()
    | .ok args =>
      match process_tool_call st c.function_name args with
      | (resp, st1, evs1) =>
        match handle_required_actions st1 rest with
        | .error e => .error e
        | .ok (outs, st2, evs2) =>
          .ok ({ tool_call_id := c.id, output := resp } :: outs, st2, evs1 ++ evs2)

/-- managers/project_manager.py: the project-side effect of one published
event.  "scope_saved" is handled by `handle_scope_saved`; the two suggestion
events only drive presentation and logging and leave the project untouched. -/
def applyBusEvent (p : ProjectData) : BusEvent → ProjectData
  | .scope_saved sc => handleScopeSaved p sc
  | .suggestions_generated _ _ _ => p
  | .project_names_generated _ _ => p

/-- Folding the project through a list of published events. -/
def applyBusEvents (p : ProjectData) (evs : List BusEvent) : ProjectData :=
  evs.foldl applyBusEvent p

/-- The remote run statuses observed by the polling loop. -/
inductive RunStatus where
  | queued : RunStatus
  | in_progress : RunStatus
  | requires_action : RunStatus
  | completed : RunStatus
  | failed : RunStatus
  | expired : RunStatus
  | cancelled : RunStatus
deriving Repr, DecidableEq, Inhabited

/-- Observable events of one `run_assistant` invocation, in order:
run creation, each poll (`runs.retrieve`) with the status it returned,
dispatcher invocations (`tool_handler(run)` with the run's pending calls),
tool-output submissions (`runs.submit_tool_outputs`), the final message fetch
(`messages.list(order="desc", limit=1)`), the printed assistant message, the
`on_message_received` callback, and the failure report for a terminal
failed/expired/cancelled status. -/
inductive REvent where
  | createRun : REvent
  | poll (s : RunStatus) : REvent
  | dispatch (calls : List ToolCall) : REvent
  | submit (outs : List ToolOutput) : REvent
  | fetchLatest : REvent
  | surface (content : String) : REvent
  | callbackMsg (content : String) : REvent
  | reportFail (s : RunStatus) : REvent

/-- The latest message of the thread, as returned by the post-completion
`messages.list(..., order="desc", limit=1)` call. -/
structure Message where
  role : String
  content : String
deriving Repr, DecidableEq, Inhabited

/-- The polling loop of managers/assistant_manager.py
`AssistantManager.run_assistant` (scope_agent.py `_process_message` has the
same loop), driven by the scripted list of statuses that successive
`runs.retrieve` calls return.  `pending` is the batch of tool calls carried by
the run object whenever `requires_action` is observed.

* `completed` breaks the loop (result `some true`).
* `requires_action` invokes the tool handler synchronously; the handler
  processes the batch and submits the outputs (non-empty batches only) before
  the loop polls again.  A `json.loads` exception inside the handler
  propagates into `run_assistant`'s `except` clause, which returns `False`.
* `failed`/`expired`/`cancelled` report the failure and return `False`.
* any other status just continues polling.

The per-cycle "status already reported" memo only dedupes progress text and is
not modelled; an exhausted script (result `none`) corresponds to a run the
real loop would still be polling. -/
def runLoop (pending : List ToolCall) (st : ToolState) :
    List RunStatus → List REvent × ToolState × Option Bool
  | [] => ([], st, none)
  | s :: rest =>
    match s with
    | .completed => ([.poll .completed], st, some true)
    | .requires_action =>
      match handle_required_actions st pending with
      | .error _ => ([.poll .requires_action, .dispatch pending], st, some false)
      | .ok (outs, st1, _evs) =>
        let submitEvs := if outs.isEmpty then [] else [REvent.submit outs]
        let (evs, st2, r) := runLoop pending st1 rest
        (.poll .requires_action :: .dispatch pending :: (submitEvs ++ evs), st2, r)
    | .failed => ([.poll .failed, .reportFail .failed], st, some false)
    | .expired => ([.poll .expired, .reportFail .expired], st, some false)
    | .cancelled => ([.poll .cancelled, .reportFail .cancelled], st, some false)
    | s0 =>
      match runLoop pending st rest with
      | (evs, st1, r) => (.poll s0 :: evs, st1, r)

/-- managers/assistant_manager.py `AssistantManager.run_assistant`: create the
run, poll it with `runLoop`, and after a `completed` break fetch the single
most recent message; when its author role is `"assistant"`, print it and
forward it to the `on_message_received` callback.  Returns the event trace and
the boolean outcome (`none` only for an exhausted script). -/
def run_assistant (statuses : List RunStatus) (pending : List ToolCall)
    (latest : Message) (st : ToolState) : List REvent × Option Bool :=
  match runLoop pending st statuses with
  | (evs, _st, r) =>
    match r with
    | some true =>
      let post := if latest.role = "assistant"
        then [REvent.fetchLatest, .surface latest.content, .callbackMsg latest.content]
        else [REvent.fetchLatest]
      (REvent.createRun :: (evs ++ post), some true)
    | r0 => (REvent.createRun :: evs, r0)

/-- Is an event a dispatcher invocation? -/
def REvent.isDispatch : REvent → Bool
  | .dispatch _ => true
  | _ => false

/-- Is an event a poll? -/
def REvent.isPoll : REvent → Bool
  | .poll _ => true
  | _ => false

/-- The claim-side count of C3: the number of complete slots among the fixed
eight required categories of a scope document. -/
def countCompleteRequired (s : ScopeData) : Nat :=
  (s.coreFields.filter (fun f => f.is_complete)).length

/-- One `update_category` call, bundled for reasoning about call sequences. -/
structure ScopeUpdateOp where
  category : String
  value : String
  description : Option String := none
  suggestion_id : Option String := none
  timestamp : Option String := none
  is_custom : Bool := false
  now : String := ""
deriving Repr, DecidableEq, Inhabited

/-- Apply a sequence of `update_category` calls to a scope document. -/
def applyScopeUpdates (s : ScopeData) (ops : List ScopeUpdateOp) : ScopeData :=
  ops.foldl (fun s op =>
    s.update_category op.category op.value op.description op.suggestion_id
      op.timestamp op.is_custom op.now) s

/-- Additional-category names used when quantifying over `update_category`
sequences.  None of these collides with an attribute of the Python `ScopeData`
object, so the embedding of `update_category` is faithful for them (see the
`hasattr` note on `ScopeData.update_category`). -/
def knownFreshCats : List String :=
  ["stakeholder", "budget", "extra_info", "custom_category"]

/-- The decoded argument payload of a tool call whose payload parses. -/
def decodedArgs (c : ToolCall) : JVal :=
  match jsonLoads c.arguments with
  | .ok v => v
  | .error _ => .jnull

/-- The typed output `_process_tool_call` produces for one call.  The response
depends only on the call itself (see `process_tool_call_fst_const`). -/
def callResponse (c : ToolCall) : ToolResponse :=
  (process_tool_call {} c.function_name (decodedArgs c)).1

/-- A concrete three-entry interaction ledger. -/
def threeLedger : InteractionHistory :=
  { interactions := [{ question := "What is the objective?" },
                     { question := "Who is the audience?" },
                     { question := "What is the timeline?" }] }

/-- A concrete project whose ledger holds three entries. -/
def threeEntryProject : ProjectData :=
  { name := "Alpha", interaction_history := threeLedger }

/-- A concrete project whose ledger holds one unresolved entry. -/
def oneRecProject : ProjectData :=
  { name := "Beta",
    interaction_history := { interactions := [{ question := "What is the objective?" }] } }

/-- A filled scope slot. -/
def filledSlot : CategoryData := { value := some "done" }

/-- A scope document with all eight required slots complete. -/
def fullScope : ScopeData :=
  { project_name := filledSlot, objective := filledSlot, audience := filledSlot,
    deliverable := filledSlot, timeline := filledSlot, resource := filledSlot,
    risk := filledSlot, success_metric := filledSlot }

/-- A concrete project that has reached the terminal `complete` stage (its
scope is 100% complete and its status is `"complete"`). -/
def completeProject : ProjectData :=
  { name := "Done", stage := .complete, status := "complete", scope := fullScope }

/-- A pending tool call whose serialized argument payload is not valid JSON
(`json.loads` raises on it). -/
def badCall : ToolCall :=
  { id := "call_1", function_name := "generate_suggestions", arguments := none }

/-- A well-formed `generate_suggestions` payload. -/
def goodSuggestionPayload : JVal :=
  .jobj [("category", .jstr "objective"),
         ("question", .jstr "What is the objective?"),
         ("suggestions", .jarr [])]

/-- A pending `generate_suggestions` call with a well-formed payload. -/
def goodCall : ToolCall :=
  { id := "call_2", function_name := "generate_suggestions",
    arguments := some goodSuggestionPayload }

/-- A `generate_project_names` payload that parses as JSON but fails schema
validation (the required `project_description` field is missing). -/
def invalidNamesPayload : JVal := .jobj [("suggestions", .jarr [])]

/-- A pending `generate_project_names` call whose payload fails validation. -/
def invalidNamesCall : ToolCall :=
  { id := "call_3", function_name := "generate_project_names",
    arguments := some invalidNamesPayload }

/-- A concrete assistant-authored latest message. -/
def assistantMsg : Message := { role := "assistant", content := "What is your timeline?" }

/-- A concrete sequence of `update_category` calls: two required slots and one
additional category. -/
def c3ops : List ScopeUpdateOp :=
  [{ category := "objective", value := "Ship version one", now := "t1" },
   { category := "audience", value := "Developers", now := "t2" },
   { category := "custom_category", value := "Anything", now := "t3" }]

/-- Recorder/project evolution used to exercise `record_question`:
start from an empty ledger. -/
def c8proj0 : ProjectData := { name := "P" }

/-- A fresh recorder. -/
def c8rec0 : InteractionRecorder := {}

/-- First recorded question. -/
def c8step1 : InteractionRecorder × ProjectData × Int :=
  c8rec0.record_question c8proj0 "Q1?" none [] "t1"

/-- Second recorded question. -/
def c8step2 : InteractionRecorder × ProjectData × Int :=
  c8step1.1.record_question c8step1.2.1 "Q2?" none [] "t2"

/-- Third recorded question. -/
def c8step3 : InteractionRecorder × ProjectData × Int :=
  c8step2.1.record_question c8step2.2.1 "Q3?" none [] "t3"

/-- The scripted status sequence of claim C1. -/
def c1script : List RunStatus :=
  [.queued, .in_progress, .requires_action, .in_progress, .completed]

/-- The record at position `idx` after a `record_response` call (the record
the call resolved, when it succeeded). -/
def resolvedRecord (p : ProjectData) (idx : Int) (sel sid ci : Option String)
    (flag : Bool) : InteractionRecord :=
  (InteractionRecorder.record_response p idx sel sid ci flag).2
    |>.interaction_history.interactions |>.getD idx.toNat default

/-- Claim C7: for every ledger and every index outside `[0, number of
records)`, `update_interaction` returns failure and leaves every record (and
the length) unchanged; for every index inside the range it returns success. -/
theorem c7_update_interaction_bounds (h : InteractionHistory) (index : Int)
    (upd : InteractionRecord → InteractionRecord) :
    (¬ (0 ≤ index ∧ index < (h.interactions.length : Int)) →
      h.update_interaction index upd = (false, h)) ∧
    ((0 ≤ index ∧ index < (h.interactions.length : Int)) →
      (h.update_interaction index upd).1 = true) := by
  constructor
  · intro hout
    simp only [InteractionHistory.update_interaction, if_neg hout]
  · intro hin
    simp only [InteractionHistory.update_interaction, if_pos hin]

/-- Witness for C7: on the three-entry ledger, updating index 5 fails and
leaves the ledger untouched, while updating index 1 succeeds. -/
theorem c7_update_interaction_bounds_witness :
    InteractionHistory.update_interaction threeLedger 5
      (fun r => { r with is_custom := true }) = (false, threeLedger) ∧
    (InteractionHistory.update_interaction threeLedger 1
      (fun r => { r with is_custom := true })).1 = true := by
  constructor
  · exact (c7_update_interaction_bounds threeLedger 5 _).1 (by decide)
  · exact (c7_update_interaction_bounds threeLedger 1 _).2 (by decide)

/-- Counterexample for C9: the claim says punctuation-only input is replaced
by the sentinel, and spells the sentinel `"no specific question recorded"`.
The code replaces only the exact string `"."` besides empty/whitespace-only
input, so the punctuation-only `"!"` is kept verbatim, and the sentinel the
code does use is capitalized differently. -/
theorem c9_punctuation_counterexample :
    validate_question "!" = "!" ∧
    ("!" : String) ≠ "no specific question recorded" ∧
    validate_question "" = "No specific question recorded" ∧
    ("No specific question recorded" : String) ≠ "no specific question recorded" :=
  ⟨by decide, by decide, by decide, by decide⟩

/-- Claim C9 as amended: a constructed record's question field is the sentinel
`"No specific question recorded"` exactly when the supplied string is empty,
whitespace-only, or the single period `"."`; otherwise it is kept verbatim. -/
theorem c9_question_sentinel (ts q : String) (cat : Option String)
    (sg : List SuggestionItem) :
    ((q = "" ∨ pyStrip q = "" ∨ q = ".") →
      (mkInteractionRecord ts q cat sg).question = "No specific question recorded") ∧
    (q ≠ "" → pyStrip q ≠ "" → q ≠ "." →
      (mkInteractionRecord ts q cat sg).question = q) := by
  constructor
  · intro hq
    have hcond : q = "" ∨ q = "." ∨ pyStrip q = "" := by tauto
    simp only [mkInteractionRecord, validate_question, if_pos hcond]
  · intro h1 h2 h3
    have hcond : ¬ (q = "" ∨ q = "." ∨ pyStrip q = "") := by tauto
    simp only [mkInteractionRecord, validate_question, if_neg hcond]

/-- Witness for C9 as amended: a whitespace-only question becomes the sentinel
and an ordinary question is kept. -/
theorem c9_question_sentinel_witness :
    (mkInteractionRecord "t" "   " none []).question = "No specific question recorded" ∧
    (mkInteractionRecord "t" "What is the goal?" none []).question = "What is the goal?" := by
  constructor
  · exact (c9_question_sentinel "t" "   " none []).1 (Or.inr (Or.inl (by decide)))
  · exact (c9_question_sentinel "t" "What is the goal?" none []).2
      (by decide) (by decide) (by decide)

/-- Claim C5 (code_bug evaluation): every `save_scope` call — well-formed or
malformed — answers `status="partial"` with the explanatory message and
publishes no notification, so any project (in particular its lifecycle stage)
is left unchanged.  The claimed success path (`status="success"` plus a
"scope saved" notification) is unreachable; see `handle_save_scope` for why
(`models.suggestions.ScopeData` has no `scope` field, so `_handle_save_scope`
raises inside its `try` on every input and lands in the `partial` fallback). -/
theorem c5_save_scope_always_partial (args : JVal) (p : ProjectData) :
    handle_save_scope args =
      (ToolResponse.scope "partial"
        "Progress saved, but complete scope document not available yet", []) ∧
    applyBusEvents p (handle_save_scope args).2 = p ∧
    (applyBusEvents p (handle_save_scope args).2).stage = p.stage :=
  ⟨rfl, rfl, rfl⟩

/-- Claim C10: `save_project` derives the target path solely from the project
name with every non-alphanumeric character replaced by `_`, so any two project
names whose sanitized forms agree map to one path, and saving the second
project overwrites the first project's persisted state at that path. -/
theorem c10_colliding_names_overwrite (st : List (String × ProjectData))
    (dir now1 now2 : String) (p1 p2 : ProjectData)
    (hcol : pySafeName p1.name = pySafeName p2.name) :
    projectFilePath dir p1.name = projectFilePath dir p2.name ∧
    storeGet (DataManager.save_project
        (DataManager.save_project st dir p1 now1).1 dir p2 now2).1
      (projectFilePath dir p1.name) = some { p2 with last_modified := now2 } := by
  have hpath : projectFilePath dir p1.name = projectFilePath dir p2.name := by
    unfold projectFilePath
    rw [hcol]
  refine ⟨hpath, ?_⟩
  rw [hpath]
  simp [DataManager.save_project, storeGet, storePut]

/-- Witness for C10: the distinct names `"a b"` and `"a_b"` sanitize to the
same file name, and saving the second project silently replaces the first's
file contents. -/
theorem c10_colliding_names_overwrite_witness :
    projectFilePath "projects" "a b" = projectFilePath "projects" "a_b" ∧
    storeGet (DataManager.save_project
        (DataManager.save_project [] "projects" { name := "a b" } "t1").1
        "projects" { name := "a_b" } "t2").1
      (projectFilePath "projects" "a b")
      = some { name := "a_b", last_modified := "t2" } ∧
    ("a b" : String) ≠ "a_b" := by
  have h := c10_colliding_names_overwrite [] "projects" "t1" "t2"
    { name := "a b" } { name := "a_b" } (by decide)
  exact ⟨h.1, h.2, by decide⟩

/-- Inserting a memo entry makes it the one found for that key. -/
theorem intAssocGet_put (l : List (String × Int)) (k : String) (v : Int) :
    intAssocGet (intAssocPut l k v) k = some v := by
  induction l with
  | nil => simp [intAssocPut, intAssocGet, List.find?]
  | cons e rest ih =>
    obtain ⟨k1, v1⟩ := e
    by_cases hk : k1 = k
    · subst hk
      simp [intAssocPut, intAssocGet, List.find?]
    · simp only [intAssocPut, if_neg hk, intAssocGet, List.find?]
      rw [show (k1 == k) = false from beq_eq_false_iff_ne.mpr hk]
      simpa [intAssocGet] using ih

/-- Counterexample for C8: on a fresh recorder, `get_latest_index` of a
project whose ledger holds 3 entries is −1, not 2 — the memo, not the ledger,
is consulted. -/
theorem c8_fresh_recorder_counterexample :
    threeEntryProject.interaction_history.interactions.length = 3 ∧
    InteractionRecorder.get_latest_index {} threeEntryProject = -1 ∧
    ((-1 : Int) ≠ 2) :=
  ⟨by decide, by decide, by decide⟩

/-- Claim C8 as amended: `get_latest_index` returns the index memoized for the
project's name (−1 when nothing was recorded under that name by this recorder
instance); immediately after a `record_question` under the current name, that
memo equals the zero-based index of the ledger's most recently appended
record. -/
theorem c8_latest_index_memo (r : InteractionRecorder) (p : ProjectData)
    (q : String) (cat : Option String) (sg : List SuggestionItem) (now : String) :
    (intAssocGet r.latest_indices p.name = none → r.get_latest_index p = -1) ∧
    ((r.record_question p q cat sg now).2.2
        = (p.interaction_history.interactions.length : Int) ∧
     (r.record_question p q cat sg now).1.get_latest_index
        (r.record_question p q cat sg now).2.1
        = (r.record_question p q cat sg now).2.2 ∧
     (r.record_question p q cat sg now).2.1.interaction_history.interactions.length
        = p.interaction_history.interactions.length + 1) := by
  refine ⟨?_, rfl, ?_, ?_⟩
  · intro hn
    simp [InteractionRecorder.get_latest_index, hn]
  · simp [InteractionRecorder.record_question, InteractionRecorder.get_latest_index,
      InteractionHistory.add_interaction, intAssocGet_put]
  · simp [InteractionRecorder.record_question, InteractionHistory.add_interaction]

/-- Witness for C8 as amended: recording three questions yields latest index
2 on the resulting three-entry ledger, while the fresh recorder reports −1. -/
theorem c8_latest_index_memo_witness :
    c8step3.1.get_latest_index c8step3.2.1 = 2 ∧
    c8step3.2.1.interaction_history.interactions.length = 3 ∧
    c8rec0.get_latest_index c8proj0 = -1 := by
  have h3 := (c8_latest_index_memo c8step2.1 c8step2.2.1 "Q3?" none [] "t3").2
  have h0 := (c8_latest_index_memo c8rec0 c8proj0 "Q1?" none [] "t1").1 (by decide)
  refine ⟨?_, by decide, h0⟩
  calc c8step3.1.get_latest_index c8step3.2.1
      = c8step3.2.2 := h3.2.1
    _ = (c8step2.2.1.interaction_history.interactions.length : Int) := h3.1
    _ = 2 := by decide

/-- `updList` rewrites exactly the targeted position. -/
theorem updList_getD (f : InteractionRecord → InteractionRecord)
    (l : List InteractionRecord) (n : Nat) (hn : n < l.length)
    (d : InteractionRecord) :
    (updList f n l).getD n d = f (l.getD n d) := by
  induction l generalizing n with
  | nil => simp at hn
  | cons x xs ih =>
    cases n with
    | zero => simp [updList]
    | succ m =>
      simp only [updList, List.getD_cons_succ]
      exact ih m (by simpa using hn)

/-- Counterexample for C6: `record_response` copies the caller's `is_custom`
argument verbatim, so a successful resolving call that supplies a selection
but passes `is_custom=True` leaves a record whose `is_custom` flag is true
while `custom_input` is null — the flag does not match which field is set. -/
theorem c6_flag_mismatch_counterexample :
    (InteractionRecorder.record_response oneRecProject 0
      (some "A") (some "s1") none true).1 = true ∧
    (resolvedRecord oneRecProject 0 (some "A") (some "s1") none true).selection
      = some "A" ∧
    (resolvedRecord oneRecProject 0 (some "A") (some "s1") none true).custom_input
      = none ∧
    (resolvedRecord oneRecProject 0 (some "A") (some "s1") none true).is_custom
      = true ∧
    ¬ ((resolvedRecord oneRecProject 0 (some "A") (some "s1") none true).is_custom
        = true ↔
       (resolvedRecord oneRecProject 0 (some "A") (some "s1") none true).custom_input.isSome
        = true) :=
  ⟨by decide, by decide, by decide, by decide, by decide⟩

/-- Claim C6 as amended: after a successful `record_response` call that
supplies exactly one of a selection and a custom input *and* whose `is_custom`
argument says which one (as every call site in the repository does), the
resolved record has exactly one of `selection`/`custom_input` non-null and its
`is_custom` flag matches which one is set. -/
theorem c6_resolution_exclusive (p : ProjectData) (idx : Int)
    (sel sid ci : Option String) (flag : Bool)
    (hone : sel.isSome = !ci.isSome)
    (hflag : flag = ci.isSome)
    (hok : (InteractionRecorder.record_response p idx sel sid ci flag).1 = true) :
    (resolvedRecord p idx sel sid ci flag).selection.isSome
      = !(resolvedRecord p idx sel sid ci flag).custom_input.isSome ∧
    (resolvedRecord p idx sel sid ci flag).is_custom
      = (resolvedRecord p idx sel sid ci flag).custom_input.isSome := by
  by_cases hc : 0 ≤ idx ∧ idx < (p.interaction_history.interactions.length : Int)
  · have hlt : idx.toNat < p.interaction_history.interactions.length := by omega
    have hrec : resolvedRecord p idx sel sid ci flag =
        { (p.interaction_history.interactions.getD idx.toNat default) with
          selection := sel, selection_id := sid, custom_input := ci,
          is_custom := flag } := by
      unfold resolvedRecord InteractionRecorder.record_response
        InteractionHistory.update_interaction
      rw [if_pos hc]
      exact updList_getD _ _ _ hlt _
    rw [hrec]
    exact ⟨hone, hflag⟩
  · exfalso
    have : (InteractionRecorder.record_response p idx sel sid ci flag).1 = false := by
      unfold InteractionRecorder.record_response InteractionHistory.update_interaction
      rw [if_neg hc]
    rw [hok] at this
    exact Bool.noConfusion this

/-- Witness for C6 as amended: a consistent selection call on the one-record
project yields a record with only `selection` set and `is_custom = false`. -/
theorem c6_resolution_exclusive_witness :
    (resolvedRecord oneRecProject 0 (some "A") (some "s1") none false).selection.isSome
      = !(resolvedRecord oneRecProject 0 (some "A") (some "s1") none false).custom_input.isSome ∧
    (resolvedRecord oneRecProject 0 (some "A") (some "s1") none false).is_custom
      = (resolvedRecord oneRecProject 0 (some "A") (some "s1") none false).custom_input.isSome :=
  c6_resolution_exclusive oneRecProject 0 (some "A") (some "s1") none false
    (by decide) (by decide) (by decide)

/-- `complete` is the top of the stage order. -/
theorem Stage.rank_le_three (s : Stage) : Stage.rank s ≤ 3 := by
  cases s <;> simp [Stage.rank]

/-- For a non-`project_name` category, the stage transition of a category
update never decreases the stage rank. -/
theorem rank_le_stageAfter (cat : String) (s : Stage) (q : ℚ)
    (hcat : cat ≠ "project_name") :
    Stage.rank s ≤ Stage.rank (stageAfterCategoryUpdate cat s q) := by
  simp only [stageAfterCategoryUpdate, if_neg hcat]
  by_cases h1 : s = Stage.initial
  · subst h1
    by_cases h2 : q = (100 : ℚ) <;> simp [h2, Stage.rank]
  · rw [if_neg h1]
    by_cases h2 : q = (100 : ℚ)
    · rw [if_pos h2]
      exact Stage.rank_le_three s
    · rw [if_neg h2]

/-- A `project_name` category update lands on `complete` when the post-update
completion is 100%, else on `scoping` — whatever the prior stage was. -/
theorem stageAfter_project_name (s : Stage) (q : ℚ) :
    stageAfterCategoryUpdate "project_name" s q
      = if q = (100 : ℚ) then Stage.complete else Stage.scoping := by
  simp [stageAfterCategoryUpdate]

/-- Counterexample for C2: renaming a project whose stage has reached
`complete` (its scope is 100% complete) drops the stage back to `scoping` —
`update_project_name` sets `stage = "scoping"` unconditionally and nothing
restores `complete`. -/
theorem c2_rename_regresses_counterexample :
    completeProject.stage = .complete ∧
    (updateProjectName completeProject "Renamed").stage = .scoping ∧
    Stage.rank ((updateProjectName completeProject "Renamed").stage)
      < Stage.rank completeProject.stage :=
  ⟨rfl, rfl, by decide⟩

/-- Claim C2 as amended: the lifecycle stage never regresses under scope
updates for categories other than `project_name` and under scope-save
handling; but a project rename (`update_project_name`) unconditionally resets
the stage to `scoping` (regressing a `complete` project), and a `project_name`
category update passes through `scoping`, ending at `complete` only when the
completion percentage is (again) 100. -/
theorem c2_stage_monotone_amended :
    (∀ (p : ProjectData) (cat : String) (rec : InteractionRecord) (now : String),
      cat ≠ "project_name" →
      Stage.rank p.stage
        ≤ Stage.rank (p.update_category_from_interaction cat rec now).stage) ∧
    (∀ (p : ProjectData) (name : String),
      (updateProjectName p name).stage = .scoping) ∧
    (∀ (p : ProjectData) (sc : List (String × JVal)),
      Stage.rank p.stage ≤ Stage.rank (handleScopeSaved p sc).stage) ∧
    (∀ (p : ProjectData) (rec : InteractionRecord) (now : String),
      (p.update_category_from_interaction "project_name" rec now).stage = .scoping ∨
      (p.update_category_from_interaction "project_name" rec now).stage = .complete ∨
      (p.update_category_from_interaction "project_name" rec now).stage = p.stage) := by
  refine ⟨?_, fun p name => rfl, ?_, ?_⟩
  · intro p cat rec now hcat
    unfold ProjectData.update_category_from_interaction
    split
    · exact le_refl _
    · cases hres : resolveInteraction rec with
      | none => simp
      | some v =>
        obtain ⟨value, is_custom, sid⟩ := v
        dsimp only
        exact rank_le_stageAfter cat p.stage _ hcat
  · intro p sc
    unfold handleScopeSaved
    exact Stage.rank_le_three _
  · intro p rec now
    unfold ProjectData.update_category_from_interaction
    rw [if_neg (by decide : ¬ ("project_name" : String) = "")]
    cases hres : resolveInteraction rec with
    | none => right; right; rfl
    | some v =>
      obtain ⟨value, is_custom, sid⟩ := v
      dsimp only
      rw [stageAfter_project_name]
      split
      · split
        · right; left; rfl
        · left; rfl
      · split
        · right; left; rfl
        · left; rfl

/-- Witness for C2 as amended: a non-`project_name` update on the complete
project keeps the stage at `complete`, and the rename conjunct applies at a
concrete project. -/
theorem c2_stage_monotone_amended_witness :
    Stage.rank completeProject.stage
      ≤ Stage.rank ((completeProject.update_category_from_interaction "objective"
          { question := "Q?", custom_input := some "new objective", is_custom := true }
          "t").stage) ∧
    (updateProjectName oneRecProject "Gamma").stage = .scoping := by
  constructor
  · exact (c2_stage_monotone_amended.1 completeProject "objective"
      { question := "Q?", custom_input := some "new objective", is_custom := true }
      "t") (by decide)
  · exact c2_stage_monotone_amended.2.1 oneRecProject "Gamma"

/-- The completion percentage is the claim's formula: 100 times the number of
complete required slots, divided by 8, rounded to two decimals. -/
theorem completion_formula (s : ScopeData) :
    s.get_completion_percentage
      = round2 (100 * (countCompleteRequired s : ℚ) / 8) := by
  have key : ∀ (n m : ℕ), m = 8 →
      round2 (((n : ℚ) / (m : ℚ)) * 100) = round2 (100 * (n : ℚ) / 8) := by
    intro n m hm
    subst hm
    have harg : ((n : ℚ) / ((8 : ℕ) : ℚ)) * 100 = 100 * (n : ℚ) / 8 := by
      push_cast
      ring
    rw [harg]
  unfold ScopeData.get_completion_percentage countCompleteRequired
  rw [List.countP_eq_length_filter]
  exact key _ _ (by norm_num [ScopeData.coreFields])

/-- Appending entries whose keys all differ from `k` does not change an
association-list lookup of `k`. -/
theorem assocGet_append_not_mem (l extra : List (String × CategoryData))
    (k : String) (hk : ∀ e ∈ extra, e.1 ≠ k) :
    assocGet (l ++ extra) k = assocGet l k := by
  unfold assocGet
  rw [List.find?_append]
  cases hfl : l.find? (fun p => p.1 == k) with
  | some e => simp
  | none =>
    have hex : extra.find? (fun p => p.1 == k) = none := by
      rw [List.find?_eq_none]
      intro x hx
      simpa using hk x hx
    simp [hex]

/-- The enhanced completion percentage equals the claim's formula over the
eight required categories. -/
theorem enhanced_completion_formula (p : EnhancedProjectData) (now : String) :
    (p.update_completion_status now).enhanced_scope.metadata.completion_percentage
      = round2 (100 * ((coreCats.countP
          (fun c => p.enhanced_scope.catCompleted c)) : ℚ) / 8) := by
  unfold EnhancedProjectData.update_completion_status
  dsimp only
  have hc : List.countP (fun e => e.2 == "completed")
        (coreCats.map (fun cat =>
          (cat, if p.enhanced_scope.catCompleted cat then "completed" else "incomplete")))
      = coreCats.countP (fun c => p.enhanced_scope.catCompleted c) := by
    rw [List.countP_map]
    refine List.countP_congr ?_
    intro c _
    by_cases h : p.enhanced_scope.catCompleted c <;> simp [h, Function.comp]
  rw [hc]
  rw [if_pos (by norm_num [coreCats] : 0 < coreCats.length)]
  have hlen : ((coreCats.length) : ℚ) = 8 := by norm_num [coreCats]
  rw [hlen]
  have harg : ((coreCats.countP (fun c => p.enhanced_scope.catCompleted c) : ℚ) / 8) * 100
      = 100 * (coreCats.countP (fun c => p.enhanced_scope.catCompleted c) : ℚ) / 8 := by
    ring
  rw [harg]

/-- Claim C3: after any sequence of `update_category` calls (over the eight
required slots or fresh additional names), the derived completion percentage
is 100 × (complete required slots) / 8 rounded to two decimals, and it is
independent of the additional categories; the enhanced
`_update_completion_status` variant satisfies the same formula over its
required-category map and ignores non-required categories. -/
theorem c3_completion_percentage :
    (∀ (s0 : ScopeData) (ops : List ScopeUpdateOp),
      (∀ op ∈ ops, op.category ∈ coreCats ∨ op.category ∈ knownFreshCats) →
      (applyScopeUpdates s0 ops).get_completion_percentage
        = round2 (100 * (countCompleteRequired (applyScopeUpdates s0 ops) : ℚ) / 8)) ∧
    (∀ (s : ScopeData) (ac : List (String × CategoryData)),
      ScopeData.get_completion_percentage { s with additional_categories := ac }
        = s.get_completion_percentage) ∧
    (∀ (p : EnhancedProjectData) (now : String),
      (p.update_completion_status now).enhanced_scope.metadata.completion_percentage
        = round2 (100 * ((coreCats.countP
            (fun c => p.enhanced_scope.catCompleted c)) : ℚ) / 8)) ∧
    (∀ (p : EnhancedProjectData) (now : String)
        (extra : List (String × CategoryData)),
      (∀ e ∈ extra, e.1 ∉ coreCats) →
      ((EnhancedProjectData.update_completion_status
          { p with enhanced_scope := { p.enhanced_scope with
              categories := p.enhanced_scope.categories ++ extra } } now)
        |>.enhanced_scope.metadata.completion_percentage)
        = ((p.update_completion_status now)
        |>.enhanced_scope.metadata.completion_percentage)) := by
  refine ⟨?_, ?_, ?_, ?_⟩
  · intro s0 ops _hops
    exact completion_formula (applyScopeUpdates s0 ops)
  · intro s ac
    rfl
  · intro p now
    exact enhanced_completion_formula p now
  · intro p now extra hx
    rw [enhanced_completion_formula, enhanced_completion_formula]
    have hcp : List.countP (fun c =>
          ({ p with enhanced_scope := { p.enhanced_scope with
              categories := p.enhanced_scope.categories ++ extra } }
            : EnhancedProjectData).enhanced_scope.catCompleted c) coreCats
        = List.countP (fun c => p.enhanced_scope.catCompleted c) coreCats := by
      refine List.countP_congr ?_
      intro c hc
      unfold EnhancedScopeData.catCompleted
      dsimp only
      rw [assocGet_append_not_mem _ _ _ (fun e he hek => hx e he (hek ▸ hc))]
    rw [hcp]

/-- Witness for C3: a concrete three-call update sequence (two required slots,
one additional category) yields the formula's percentage, and filling an
additional category of the full scope leaves the percentage alone. -/
theorem c3_completion_percentage_witness :
    (applyScopeUpdates {} c3ops).get_completion_percentage
      = round2 (100 * (countCompleteRequired (applyScopeUpdates {} c3ops) : ℚ) / 8) ∧
    ScopeData.get_completion_percentage
        { fullScope with additional_categories := [("extra_info", filledSlot)] }
      = fullScope.get_completion_percentage ∧
    ((EnhancedProjectData.update_completion_status
        { name := "E", enhanced_scope := { categories := [("nice_to_have", filledSlot)] } }
        "t") |>.enhanced_scope.metadata.completion_percentage)
      = ((EnhancedProjectData.update_completion_status { name := "E" } "t")
        |>.enhanced_scope.metadata.completion_percentage) := by
  refine ⟨?_, ?_, ?_⟩
  · exact c3_completion_percentage.1 {} c3ops (by decide)
  · exact c3_completion_percentage.2.1 fullScope [("extra_info", filledSlot)]
  · exact c3_completion_percentage.2.2.2 { name := "E" } "t"
      [("nice_to_have", filledSlot)] (by decide)

/-- The response of `_process_tool_call` depends only on the function name and
decoded arguments, not on the coordinator's suggestion state. -/
theorem process_tool_call_fst_const (st st' : ToolState) (f : String) (a : JVal) :
    (process_tool_call st f a).1 = (process_tool_call st' f a).1 := by
  unfold process_tool_call
  split_ifs
  · rfl
  · unfold handle_generate_project_names
    cases ProjectNameRequest.parse a <;> rfl
  · unfold handle_generate_suggestions
    cases SuggestionRequest.parse a <;> rfl
  · rfl

/-- When every payload of the batch parses as JSON, `handle_required_actions`
produces exactly one output per call, in order, tagged with the originating
call identifiers, and each output is that call's own response. -/
theorem handle_required_actions_ok (st : ToolState) (calls : List ToolCall)
    (hdec : ∀ c ∈ calls, c.arguments.isSome) :
    ∃ st' evs, handle_required_actions st calls
      = .ok (calls.map (fun c => { tool_call_id := c.id, output := callResponse c }),
             st', evs) := by
  induction calls generalizing st with
  | nil => exact ⟨st, [], rfl⟩
  | cons c rest ih =>
    obtain ⟨v, hv⟩ := Option.isSome_iff_exists.mp (hdec c (List.mem_cons_self c rest))
    rcases hp : process_tool_call st c.function_name v with ⟨resp, st1, evs1⟩
    have hfst : resp = callResponse c := by
      have h2 := process_tool_call_fst_const st {} c.function_name v
      rw [hp] at h2
      dsimp only at h2
      unfold callResponse decodedArgs
      rw [hv]
      dsimp only [jsonLoads]
      exact h2
    obtain ⟨st', evs, hrest⟩ := ih st1 (fun x hx => hdec x (List.mem_cons_of_mem c hx))
    refine ⟨st', evs1 ++ evs, ?_⟩
    unfold handle_required_actions
    rw [hv]
    dsimp only [jsonLoads]
    rw [hp]
    dsimp only
    rw [hrest]
    dsimp only [List.map_cons]
    rw [hfst]

/-- Counterexample for C4: a batch containing one call whose serialized
argument payload is not valid JSON aborts wholesale — `json.loads` raises
outside the per-call handling, so no output is produced or submitted for *any*
call, including the well-formed one; the same well-formed call alone yields
its normal batch. -/
theorem c4_decode_failure_aborts_counterexample :
    handle_required_actions {} [badCall, goodCall] = .error () ∧
    handle_required_actions {} [goodCall]
      = .ok ([{ tool_call_id := "call_2", output := .suggestion "success" true 0 }],
             { current_suggestions := [],
               current_suggestion_category := some "objective" },
             [.suggestions_generated [] "objective" true]) :=
  ⟨rfl, rfl⟩

/-- Claim C4 as amended: provided every call's payload parses as JSON, a
schema-validation failure is not fatal to the batch — exactly one output per
call is produced, in the same order, each tagged with the originating call's
identifier, each call's output depending only on that call (a failing call
degrading to its tool's error/partial response); a JSON decode failure of any
payload, however, aborts the whole batch with no outputs. -/
theorem c4_validation_isolated (st : ToolState) (calls : List ToolCall)
    (hdec : ∀ c ∈ calls, c.arguments.isSome) :
    ∃ st' evs, handle_required_actions st calls
      = .ok (calls.map (fun c => { tool_call_id := c.id, output := callResponse c }),
             st', evs) :=
  handle_required_actions_ok st calls hdec

/-- Witness for C4 as amended: a batch of a validation-failing
`generate_project_names` call and a well-formed `generate_suggestions` call
yields two outputs in order — the first degraded to `status="error"`, the
second its normal success. -/
theorem c4_validation_isolated_witness :
    (∃ st' evs, handle_required_actions {} [invalidNamesCall, goodCall]
      = .ok ([{ tool_call_id := "call_3", output := callResponse invalidNamesCall },
              { tool_call_id := "call_2", output := callResponse goodCall }],
             st', evs)) ∧
    callResponse invalidNamesCall = .suggestion "error" false 0 ∧
    callResponse goodCall = .suggestion "success" true 0 := by
  obtain ⟨st', evs, h⟩ :=
    c4_validation_isolated {} [invalidNamesCall, goodCall] (by decide)
  exact ⟨⟨st', evs, h⟩, rfl, rfl⟩

/-- Claim C1: for every scripted run polling
`[queued, in_progress, requires_action, in_progress, completed]` with exactly
one pending tool call (whose payload parses), the dispatcher is invoked
exactly once, the tool outputs are submitted immediately after dispatch and
before the next poll, and the message surfaced at the end is the single most
recent message fetched after `completed` is observed, forwarded to the
`on_message_received` callback exactly when its author role is assistant. -/
theorem c1_scripted_run (tc : ToolCall) (latest : Message) (st : ToolState)
    (v : JVal) (hdec : tc.arguments = some v) :
    (run_assistant c1script [tc] latest st).2 = some true ∧
    (run_assistant c1script [tc] latest st).1
      = [REvent.createRun, .poll .queued, .poll .in_progress, .poll .requires_action,
         .dispatch [tc],
         .submit [{ tool_call_id := tc.id, output := callResponse tc }],
         .poll .in_progress, .poll .completed]
        ++ (if latest.role = "assistant"
            then [REvent.fetchLatest, .surface latest.content,
                  .callbackMsg latest.content]
            else [REvent.fetchLatest]) ∧
    List.countP REvent.isDispatch (run_assistant c1script [tc] latest st).1 = 1 ∧
    ((run_assistant c1script [tc] latest st).1)[4]? = some (.dispatch [tc]) ∧
    ((run_assistant c1script [tc] latest st).1)[5]?
      = some (.submit [{ tool_call_id := tc.id, output := callResponse tc }]) ∧
    ((run_assistant c1script [tc] latest st).1)[6]? = some (.poll .in_progress) ∧
    (latest.role = "assistant" →
      ((run_assistant c1script [tc] latest st).1)[9]?
        = some (.surface latest.content) ∧
      ((run_assistant c1script [tc] latest st).1)[10]?
        = some (.callbackMsg latest.content)) ∧
    (latest.role ≠ "assistant" → (run_assistant c1script [tc] latest st).1
      = [REvent.createRun, .poll .queued, .poll .in_progress, .poll .requires_action,
         .dispatch [tc],
         .submit [{ tool_call_id := tc.id, output := callResponse tc }],
         .poll .in_progress, .poll .completed, .fetchLatest]) := by
  obtain ⟨st1, evs1, h1⟩ := handle_required_actions_ok st [tc] (by
    intro c hc
    rw [List.mem_singleton] at hc
    subst hc
    rw [hdec]
    rfl)
  have htrace : run_assistant c1script [tc] latest st
      = ([REvent.createRun, .poll .queued, .poll .in_progress, .poll .requires_action,
          .dispatch [tc],
          .submit [{ tool_call_id := tc.id, output := callResponse tc }],
          .poll .in_progress, .poll .completed]
          ++ (if latest.role = "assistant"
              then [REvent.fetchLatest, .surface latest.content,
                    .callbackMsg latest.content]
              else [REvent.fetchLatest]), some true) := by
    unfold run_assistant c1script
    simp only [runLoop, h1, List.map_cons, List.map_nil, List.isEmpty_cons]
    by_cases hrole : latest.role = "assistant" <;> simp [hrole]
  refine ⟨?_, ?_, ?_, ?_, ?_, ?_, ?_, ?_⟩
  · rw [htrace]
  · rw [htrace]
  · rw [htrace]
    by_cases hrole : latest.role = "assistant" <;>
      simp [hrole, List.countP_append, List.countP_cons, REvent.isDispatch]
  · rw [htrace]
    rfl
  · rw [htrace]
    rfl
  · rw [htrace]
    rfl
  · intro hrole
    rw [htrace, if_pos hrole]
    exact ⟨rfl, rfl⟩
  · intro hrole
    rw [htrace, if_neg hrole]
    rfl

/-- Witness for C1: the concrete scripted run with the well-formed
`generate_suggestions` call and an assistant-authored final message completes,
dispatches once, and forwards the fetched message to the callback. -/
theorem c1_scripted_run_witness :
    (run_assistant c1script [goodCall] assistantMsg {}).2 = some true ∧
    List.countP REvent.isDispatch (run_assistant c1script [goodCall] assistantMsg {}).1
      = 1 ∧
    ((run_assistant c1script [goodCall] assistantMsg {}).1)[5]?
      = some (.submit [{ tool_call_id := "call_2",
                         output := .suggestion "success" true 0 }]) ∧
    ((run_assistant c1script [goodCall] assistantMsg {}).1)[10]?
      = some (.callbackMsg "What is your timeline?") := by
  have h := c1_scripted_run goodCall assistantMsg {} goodSuggestionPayload rfl
  exact ⟨h.1, h.2.2.1, h.2.2.2.2.1, (h.2.2.2.2.2.2.1 rfl).2⟩
